import Mathlib

/-!
Shallow embedding of the FLX_data_analyzer embedded-database layer
(`src/core/data_manager.py`) and of the deadtime-correction function
(`src/analysis/signal_processing.py`), together with proofs settling the
spec claims about them.

Modelling conventions:
* JSON values are modelled by the inductive `Json`; numbers are modelled as
  `Int` (Python's json round-trips numbers exactly, so the exact numeric
  carrier is irrelevant to the structural claims proved here).
* Python dicts (the decoded `file_index` and each `FileRecord`) are
  association lists with Python's update semantics: assignment replaces the
  value in place for an existing key and appends new keys at the end.
* The HDF5 container is the structure `Db`: the `metadata/db_info` blob, the
  decoded `metadata/file_index` blob, and the `files/` group mapping ids to
  `Entry` subtrees.
* Binary payloads are `List Nat` byte arrays; image decoding (PIL) is an
  external collaborator and its output is abstracted to the decoded array.
* `json.dumps`/`json.loads` form a bijection between `Json` values and their
  serialized strings, so storage of a serialized blob is modelled by storing
  the `Json` value itself.
* Floating-point arithmetic in `deadtime_correction` is modelled over `ℚ`;
  the claims concern clipping structure, zero-preservation and monotonicity,
  all robust to rounding.
-/

namespace FLX

/-- JSON values as produced by Python's `json` module. -/
inductive Json where
  | null
  | jbool (b : Bool)
  | jnum (n : Int)
  | jstr (s : String)
  | jarr (elems : List Json)
  | jobj (fields : List (String × Json))
deriving Repr

namespace Json

/-- Python truthiness of a JSON value (`bool(x)`): `None`, `False`, `0`,
`""`, `[]` and `{}` are falsy. -/
def falsy : Json → Bool
  | .null => true
  | .jbool b => !b
  | .jnum n => n == 0
  | .jstr s => s == ""
  | .jarr es => es.isEmpty
  | .jobj fs => fs.isEmpty

/-- `x == "lit"` for a JSON value `x` and a string literal: true only when
`x` is that string (Python `==` between a non-`str` and a `str` is `False`). -/
def isStr : Json → String → Bool
  | .jstr t, s => t == s
  | _, _ => false

end Json

/-- A Python dict decoded from JSON: association list, insertion-ordered. -/
abbrev Dict := List (String × Json)

/-- `d.get(k)` -/
def dget (d : Dict) (k : String) : Option Json :=
  (d.find? (fun p => p.1 == k)).map (fun p => p.2)

/-- `d.get(k, default)` -/
def dgetD (d : Dict) (k : String) (v : Json) : Json :=
  (dget d k).getD v

/-- `k in d` -/
def dmem (d : Dict) (k : String) : Bool :=
  d.any (fun p => p.1 == k)

/-- `d[k] = v`: replace in place if the key exists, else append
(Python dict assignment preserves the position of existing keys). -/
def dset (d : Dict) (k : String) (v : Json) : Dict :=
  match d with
  | [] => [(k, v)]
  | (k', v') :: rest =>
      if k' == k then (k', v) :: rest else (k', v') :: dset rest k v

/-- `d.update(e)`: assign each field of `e` in order. -/
def dupdate (d e : Dict) : Dict :=
  e.foldl (fun acc p => dset acc p.1 p.2) d

/-- `d.values()` in insertion order. -/
def dvalues (d : Dict) : List Json :=
  d.map (fun p => p.2)

/-! ### POSIX path helpers (`os.path` on the deployment platform).
All are written over the character list so that closed instances reduce
inside the kernel. -/

/-- `c in s` for a character. -/
def strHasChar (s : String) (c : Char) : Bool :=
  s.toList.any (fun x => x == c)

/-- `s.endswith(t)`. -/
def strEndsWith (s t : String) : Bool :=
  t.toList.isSuffixOf s.toList

/-- `s.startswith(t)`. -/
def strStartsWith (s t : String) : Bool :=
  t.toList.isPrefixOf s.toList

/-- `s.lower()`. -/
def lowerStr (s : String) : String :=
  ⟨s.toList.map Char.toLower⟩

/-- `os.path.basename` (POSIX): everything after the last `/`. -/
def basename (s : String) : String :=
  ⟨s.toList.foldl (fun acc c => if c = '/' then [] else acc ++ [c]) []⟩

/-- Index of the character after the last `/` in `s` (0 if no `/`). -/
def afterLastSep (s : String) : Nat :=
  (s.toList.foldl
    (fun (st : Nat × Nat) c => (st.1 + 1, if c = '/' then st.1 + 1 else st.2))
    (0, 0)).2

/-- Position (from the start) of the last `.` of `s`, if any. -/
def lastDotIdx (s : String) : Option Nat :=
  (s.toList.foldl
    (fun (st : Nat × Option Nat) c =>
      (st.1 + 1, if c = '.' then some st.1 else st.2))
    (0, none)).2

/-- `os.path.splitext` (POSIX): split off the extension at the last dot,
provided the basename has a non-dot character before that dot. -/
def splitext (s : String) : String × String :=
  match lastDotIdx s with
  | none => (s, "")
  | some di =>
      let fi := afterLastSep s
      if di < fi then (s, "")
      else if (List.range (di - fi)).all
          (fun j => s.toList.getD (fi + j) ' ' == '.') then (s, "")
      else (⟨s.toList.take di⟩, ⟨s.toList.drop di⟩)

/-- `os.path.dirname` (POSIX): the part before the last `/`, with trailing
slashes stripped unless the head is all slashes. -/
def dirname (s : String) : String :=
  let head := s.toList.take (afterLastSep s)
  if head.isEmpty then ""
  else if head.all (fun c => c == '/') then ⟨head⟩
  else ⟨(head.reverse.dropWhile (fun c => c == '/')).reverse⟩

/-- `os.path.join(a, b)` (POSIX, two arguments). -/
def joinPath (a b : String) : String :=
  if strStartsWith b "/" then b
  else if a == "" || strEndsWith a "/" then a ++ b
  else a ++ "/" ++ b

end FLX

namespace FLX

/-! ### Data model: entries and the container -/

/-- An HDF5 attribute value as seen by `_attempt_metadata_repair`: either a
(decoded) string or some non-string value, which the repair heuristic's
`isinstance(attr_value, str)` check skips. -/
inductive AttrVal where
  | str (s : String)
  | nonstr
deriving Repr, DecidableEq

/-- A raw-data slot: either the JSON-`null` marker written for a missing
member, or a stored byte array. -/
inductive Slot where
  | absent
  | bytes (data : List Nat)
deriving Repr, DecidableEq

/-- The `raw_data/` group of an entry. `none` in a field means the dataset
key itself is missing from the group (distinct from `Slot.absent`, a present
dataset holding the JSON-`null` marker). -/
structure RawData where
  alignment_image : Option Slot
  laser_on_image : Option Slot
  photon_data : Option Slot
deriving Repr

/-- The singular current-analysis group `photon_analysis/`; each dataset can
be individually missing (an exception between the two writes leaves only
`results`). -/
structure PhotonAnalysis where
  results : Option Json
  metadata : Option Json
deriving Repr

/-- One `files/{id}` Entry subtree. `analysis` is the legacy per-run
namespace (run id, results blob, metadata blob); `photon_analysis` is the
singular current-analysis slot. -/
structure Entry where
  attrs : List (String × AttrVal)
  file_metadata : Option Json
  raw_data : Option RawData
  analysis : List (String × Json × Json)
  photon_analysis : Option PhotonAnalysis
deriving Repr

/-- A FileRecord: one decoded value of the `file_index` map. -/
abbrev FileRecord := Dict

/-- The FLDB container: `metadata/db_info`, the decoded
`metadata/file_index` blob, and the `files/` group. -/
structure Db where
  db_info : Json
  file_index : List (String × FileRecord)
  files : List (String × Entry)
deriving Repr

/-- Look up an id in an association list (`id in group` / `dict[id]`). -/
def alget (l : List (String × α)) (k : String) : Option α :=
  (l.find? (fun p => p.1 == k)).map (fun p => p.2)

/-- Membership test on an association list. -/
def almem (l : List (String × α)) (k : String) : Bool :=
  l.any (fun p => p.1 == k)

/-- Set a key in an association list, replacing in place or appending. -/
def alset (l : List (String × α)) (k : String) (v : α) : List (String × α) :=
  match l with
  | [] => [(k, v)]
  | (k', v') :: rest =>
      if k' == k then (k', v) :: rest else (k', v') :: alset rest k v

/-- Remove a key from an association list (`del d[k]`). -/
def aldel (l : List (String × α)) (k : String) : List (String × α) :=
  l.filter (fun p => p.1 != k)

/-! ### Store/Index core -/

/-- `DataManager` state: the retained path handle (`self.db_path`). -/
structure DM where
  db_path : Option String
deriving Repr, DecidableEq

/-- Normalization performed by `create_database`: append the required
`.fldb` extension when it is missing. -/
def normalizePath (p : String) : String :=
  if strEndsWith p ".fldb" then p else p ++ ".fldb"

/-- The fresh container written by `create_database`: DbInfo plus an empty
FileIndex and an empty `files/` group. -/
def freshDb (now : String) : Db :=
  { db_info := Json.jobj
      [("created", Json.jstr now),
       ("version", Json.jstr "1.0"),
       ("description", Json.jstr "FLX Data Analyzer Database")],
    file_index := [],
    files := [] }

/-- `DataManager.create_database`.  `self.db_path` is assigned the argument
as passed, *before* the extension normalization (data_manager.py:160-162);
the container itself is written at the normalized path.  `writable` models
whether opening the normalized path for writing succeeds; on failure the
exception handler returns `False` (and no file is produced).  Result:
(new manager state, success flag, created file as (path, contents)). -/
def create_database (dm : DM) (db_path : String) (writable : Bool)
    (now : String) : DM × Bool × Option (String × Db) :=
  let dm' : DM := { dm with db_path := some db_path }
  if writable then (dm', true, some (normalizePath db_path, freshDb now))
  else (dm', false, none)

/-- `DataManager._update_file_index`: read the whole index, merge the given
fields into an existing record or insert a new one, rewrite the whole blob. -/
def updateFileIndex (db : Db) (file_id : String) (file_info : FileRecord) :
    Db :=
  match alget db.file_index file_id with
  | some existing =>
      let idx := alset db.file_index file_id (dupdate existing file_info)
      { db with file_index := idx }
  | none =>
      { db with file_index := alset db.file_index file_id file_info }

/-! ### Ingest: format-A (FLZ) archives -/

/-- The members of a format-A zip archive relevant to
`_extract_flz_contents`, each `none` when the member name is absent from the
archive's name list.  The JSON metadata member is carried already parsed and
the two raster members already decoded (PIL decoding is an external
collaborator). -/
structure FlzArchive where
  metadata : Option Json
  alignment_image : Option (List Nat)
  laser_on_image : Option (List Nat)
  photon_data : Option (List Nat)
deriving Repr

/-- How `add_flz_file` stores a raw-data member: a missing archive member is
stored as the JSON-`null` marker (an Absent slot), a present one as its
bytes.  The guards of `add_flz_file` for a closed database, a missing source
file and a corrupt zip return `None` upstream and do not touch the
container. -/
def slotOf : Option (List Nat) → Slot
  | some d => Slot.bytes d
  | none => Slot.absent

/-- The `metadata/file_metadata` dataset written by `add_flz_file`: stored
only when the extracted metadata dict is truthy
(`if file_data['metadata']:`). -/
def truthyMeta : Option Json → Option Json
  | some m => if m.falsy then none else some m
  | none => none

/-- The Entry subtree written by `add_flz_file`
(data_manager.py:247-278). -/
def flzEntry (arch : FlzArchive) : Entry :=
  { attrs := [],
    file_metadata := truthyMeta arch.metadata,
    raw_data := some
      { alignment_image := some (slotOf arch.alignment_image),
        laser_on_image := some (slotOf arch.laser_on_image),
        photon_data := some (slotOf arch.photon_data) },
    analysis := [],
    photon_analysis := none }

/-- The FileRecord upserted by `add_flz_file` (data_manager.py:281-288). -/
def flzRecord (arch : FlzArchive) (flz_path now : String) : FileRecord :=
  [("original_path", Json.jstr flz_path),
   ("file_type", Json.jstr "flz"),
   ("added", Json.jstr now),
   ("has_alignment_image", Json.jbool arch.alignment_image.isSome),
   ("has_laser_on_image", Json.jbool arch.laser_on_image.isSome),
   ("has_photon_data", Json.jbool arch.photon_data.isSome)]

/-- Body of `DataManager.add_flz_file` past its guards: build the Entry
subtree, then upsert the FileRecord; returns the new id. -/
def add_flz_file (db : Db) (uid : String) (arch : FlzArchive)
    (flz_path now : String) : Db × Option String :=
  (updateFileIndex { db with files := db.files ++ [(uid, flzEntry arch)] }
    uid (flzRecord arch flz_path now), some uid)

end FLX

namespace FLX

/-! ### Current-analysis write and entry read -/

/-- Python `len(x)` on a JSON value; `none` models the `TypeError` raised on
`None`, booleans and numbers. -/
def jsonLen : Json → Option Nat
  | .jstr s => some s.length
  | .jarr es => some es.length
  | .jobj fs => some fs.length
  | _ => none

/-- `DataManager.update_file_analysis`: replace the entry's
`photon_analysis` group with a fresh one holding the serialized
`analysis_results` dict plus a summary-metadata blob, then flag
`has_analysis` in the FileRecord.  If computing the summary raises (a
non-sized `start_bins` value), the exception handler returns `False` with
the `results` dataset already written and no `metadata` dataset. -/
def analysisMeta (analysis_results : Dict) (now : String) (nStart : Nat) :
    Json :=
  Json.jobj
    [("analysis_type", Json.jstr "photon_data_analysis"),
     ("created", Json.jstr now),
     ("total_peaks", dgetD analysis_results "total_peak_count" (Json.jnum 0)),
     ("flowrate", dgetD analysis_results "flowrate" (Json.jnum 0)),
     ("has_peaks", Json.jbool (0 < nStart))]

/-- The body of `update_file_analysis` once the entry has been found:
replace `photon_analysis` wholesale, write `results` then the summary
metadata, then flag the index. -/
def update_file_analysis_with (db : Db) (file_id : String)
    (analysis_results : Dict) (now : String) (entry : Entry) : Db × Bool :=
  match jsonLen (dgetD analysis_results "start_bins" (Json.jarr [])) with
  | none =>
      let pa : PhotonAnalysis :=
        { results := some (Json.jobj analysis_results),
          metadata := none }
      let fs := alset db.files file_id
        { entry with photon_analysis := some pa }
      ({ db with files := fs }, false)
  | some nStart =>
      let pa : PhotonAnalysis :=
        { results := some (Json.jobj analysis_results),
          metadata := some (analysisMeta analysis_results now nStart) }
      let fs := alset db.files file_id
        { entry with photon_analysis := some pa }
      (updateFileIndex { db with files := fs } file_id
        [("has_analysis", Json.jbool true)], true)

/-- The entry as it stands after a successful `update_file_analysis`. -/
def entryWithAnalysis (e : Entry) (d : Dict) (now : String) (n : Nat) :
    Entry :=
  let pa : PhotonAnalysis :=
    { results := some (Json.jobj d),
      metadata := some (analysisMeta d now n) }
  { e with photon_analysis := some pa }

def update_file_analysis (db : Db) (file_id : String)
    (analysis_results : Dict) (now : String) : Db × Bool :=
  match alget db.files file_id with
  | none => (db, false)
  | some entry =>
      update_file_analysis_with db file_id analysis_results now entry

/-- A raw-data dataset as returned by `get_file_data`: the stored
JSON-`null` marker reads back as `None`, binary data as the byte array. -/
def readSlot : Slot → Option (List Nat)
  | .absent => none
  | .bytes d => some d

/-- The dictionary returned by `DataManager.get_file_data`.  Each raw-data
field is `none` when the dataset key is missing from the `raw_data/` group,
and otherwise holds the decoded dataset. -/
structure FileData where
  file_id : String
  metadata : Option Json
  alignment_image : Option (Option (List Nat))
  laser_on_image : Option (Option (List Nat))
  photon_data : Option (Option (List Nat))
  analysis_results : List (String × Json × Json)
  photon_analysis : Option PhotonAnalysis
deriving Repr

/-- `DataManager.get_file_data`: assemble metadata, decoded raw-data slots,
the legacy analysis namespace, and the current-analysis group (whose
`results` blob is passed through serialized, not re-parsed). -/
def get_file_data (db : Db) (file_id : String) : Option FileData :=
  match alget db.files file_id with
  | none => none
  | some entry =>
      some
        { file_id := file_id,
          metadata := entry.file_metadata,
          alignment_image := (entry.raw_data.bind (fun rd =>
            rd.alignment_image)).map readSlot,
          laser_on_image := (entry.raw_data.bind (fun rd =>
            rd.laser_on_image)).map readSlot,
          photon_data := (entry.raw_data.bind (fun rd =>
            rd.photon_data)).map readSlot,
          analysis_results := entry.analysis,
          photon_analysis := entry.photon_analysis }

/-! ### Lifecycle operations -/

/-- `DataManager.delete_file`: fail when the id has no `files/` subtree;
otherwise delete the subtree, then drop the FileRecord when present. -/
def delete_file (db : Db) (file_id : String) : Db × Bool :=
  if almem db.files file_id then
    let db' := { db with files := aldel db.files file_id }
    if almem db'.file_index file_id then
      ({ db' with file_index := aldel db'.file_index file_id }, true)
    else (db', true)
  else (db, false)

/-- Stamp `duplicated_from`, `duplicated_at` and `added` on a duplicated
FileRecord (`duplicate_file`, data_manager.py:815-817). -/
def stampDuplicate (info : FileRecord) (file_id now : String) : FileRecord :=
  dset (dset (dset info "duplicated_from" (Json.jstr file_id))
    "duplicated_at" (Json.jstr now)) "added" (Json.jstr now)

/-- The tail of `duplicate_file` once the source FileRecord has been read:
append `_copy` to the filename stem (when the record yields a truthy
original name), mirror the rename into `original_path` when present, stamp
the duplication fields, and insert the copy under the new id.  A
`TypeError` from a non-string name field propagates to the exception
handler, which returns `None` with the subtree already copied. -/
def duplicateIndexed (db1 : Db) (file_id new_file_id now : String)
    (info : FileRecord) : Db × Option String :=
  let original_name := dgetD info "file_name"
    (dgetD info "original_path" (Json.jstr ""))
  if original_name.falsy then
    let dup := stampDuplicate info file_id now
    ({ db1 with file_index := alset db1.file_index new_file_id dup },
     some new_file_id)
  else
    match original_name with
    | Json.jstr s =>
        let nm := splitext (basename s)
        let newName := nm.1 ++ "_copy" ++ nm.2
        let dup1 := dset info "file_name" (Json.jstr newName)
        if dmem dup1 "original_path" then
          match dget dup1 "original_path" with
          | some (Json.jstr op) =>
              let dup2 := dset dup1 "original_path"
                (Json.jstr (joinPath (dirname op) newName))
              let dup3 := stampDuplicate dup2 file_id now
              let idx := alset db1.file_index new_file_id dup3
              ({ db1 with file_index := idx }, some new_file_id)
          | _ => (db1, none)
        else
          let dup3 := stampDuplicate dup1 file_id now
          let idx := alset db1.file_index new_file_id dup3
          ({ db1 with file_index := idx }, some new_file_id)
    | _ => (db1, none)

/-- `DataManager.duplicate_file` with the freshly minted id `new_file_id`
passed explicitly (the code draws it from `uuid4`).  The entry subtree is
deep-copied first; then, when a FileRecord exists, its annotated copy is
inserted (`duplicateIndexed`).  The subtree copy does not touch the index
blob, so the FileRecord is read from the pre-copy index. -/
def duplicate_file (db : Db) (file_id new_file_id now : String) :
    Db × Option String :=
  match alget db.files file_id with
  | none => (db, none)
  | some entry =>
      match alget db.file_index file_id with
      | none =>
          ({ db with files := db.files ++ [(new_file_id, entry)] },
           some new_file_id)
      | some info =>
          duplicateIndexed
            { db with files := db.files ++ [(new_file_id, entry)] }
            file_id new_file_id now info

/-- One iteration of `DataManager.merge_databases`: deep-copy the entry
subtree under its freshly minted id, then upsert the annotated FileRecord
when the source index has one (subtree-first order). -/
def mergeOne (otherIndex : List (String × FileRecord))
    (otherPath now : String) (db : Db) (item : (String × Entry) × String) :
    Db :=
  let fid := item.1.1
  let entry := item.1.2
  let nid := item.2
  let db1 := { db with files := db.files ++ [(nid, entry)] }
  match alget otherIndex fid with
  | some info =>
      let info' := dset (dset info "merged_from" (Json.jstr otherPath))
        "merged_at" (Json.jstr now)
      updateFileIndex db1 nid info'
  | none => db1

/-- `DataManager.merge_databases` after processing the first `k` entries of
the other container (`k = other.files.length` is the full merge; smaller `k`
models a mid-merge failure cutting the loop short).  `newIds` are the minted
ids, one per source entry. -/
def mergeSteps (db other : Db) (otherPath now : String)
    (newIds : List String) (k : Nat) : Db :=
  ((other.files.zip newIds).take k).foldl
    (mergeOne other.file_index otherPath now) db

/-- `DataManager.merge_databases`, complete run. -/
def merge_databases (db other : Db) (otherPath now : String)
    (newIds : List String) : Db × Bool :=
  (mergeSteps db other otherPath now newIds other.files.length, true)

end FLX

namespace FLX

/-! ### Repair/Recovery subsystem -/

/-- The suspect test of `_attempt_metadata_repair`:
`not file_info.get('original_path') or file_info.get('original_path') == 'Unknown'`. -/
def recordSuspect (info : FileRecord) : Bool :=
  let v := dgetD info "original_path" Json.null
  v.falsy || v.isStr "Unknown"

/-- The path-like heuristic applied to an Entry attribute: a string value
containing a path separator and a dot. -/
def pathlikeAttr : AttrVal → Bool
  | .str s => (strHasChar s '/' || strHasChar s '\\') && strHasChar s '.'
  | .nonstr => false

/-- Extension-based file-type inference shared by repair and listing:
`.flz`/`.fld` → `flz`, `.flr` → `flr`, `.flb` → `flb`, else nothing. -/
def extFileType (p : String) : Option String :=
  let ext := lowerStr (splitext p).2
  if ext == ".flz" || ext == ".fld" then some "flz"
  else if ext == ".flr" then some "flr"
  else if ext == ".flb" then some "flb"
  else none

/-- `'raw_data' in file_group and 'photon_data' in file_group['raw_data']`:
the `photon_data` dataset key exists, whether it holds bytes or the
JSON-`null` marker of an Absent slot. -/
def entryHasPhotonKey (entry : Entry) : Bool :=
  match entry.raw_data with
  | some rd => rd.photon_data.isSome
  | none => false

/-- Step 2 of the repair heuristic (`_attempt_metadata_repair`,
data_manager.py:720-731): synthesize `original_path`/`file_type`, derive
`file_name`, stamp `status = recovered`. -/
def repairSynthesize (file_id : String) (entry : Entry)
    (info : FileRecord) : FileRecord :=
  let hasPhoton := entryHasPhotonKey entry
  let op := if hasPhoton then "recovered_photon_data_" ++ file_id ++ ".flz"
            else "recovered_file_" ++ file_id
  let ft := if hasPhoton then "flz" else "unknown"
  let info1 := dset info "original_path" (Json.jstr op)
  let info2 := dset info1 "file_type" (Json.jstr ft)
  let info3 := dset info2 "file_name" (Json.jstr (basename op))
  dset info3 "status" (Json.jstr "recovered")

/-- Step 1 of the repair heuristic: adopt the first path-like string
attribute of the Entry as `original_path`, deriving `file_name` and (for
known extensions) `file_type` (data_manager.py:697-718). -/
def repairFromAttrs (info : FileRecord) (entry : Entry) : FileRecord × Nat :=
  match entry.attrs.find? (fun p => pathlikeAttr p.2) with
  | some (_, AttrVal.str s) =>
      let info1 := dset info "original_path" (Json.jstr s)
      let info2 := dset info1 "file_name" (Json.jstr (basename s))
      let info3 :=
        match extFileType s with
        | some t => dset info2 "file_type" (Json.jstr t)
        | none => info2
      (info3, 1)
  | _ => (info, 0)

/-- The `_attempt_metadata_repair` loop body once the Entry subtree has
been found: step 1 (attributes), then the re-check and step 2
(synthesis). -/
def repairWithEntry (file_id : String) (info : FileRecord)
    (entry : Entry) : FileRecord × Nat :=
  let step1 := repairFromAttrs info entry
  if recordSuspect step1.1 then
    (repairSynthesize file_id entry step1.1, step1.2 + 1)
  else step1

/-- Per-record body of the `_attempt_metadata_repair` loop: returns the
(possibly) repaired record and how many times `repaired_count` was
incremented for it. -/
def repairRecord (file_id : String) (info : FileRecord)
    (files : List (String × Entry)) : FileRecord × Nat :=
  if !recordSuspect info then (info, 0)
  else
    match alget files file_id with
    | none => (info, 0)
    | some entry => repairWithEntry file_id info entry

/-- The index produced by one `_attempt_metadata_repair` pass (before the
`repaired_count > 0` persistence check). -/
def repairedIndex (db : Db) : List (String × FileRecord) :=
  db.file_index.map (fun p => (p.1, (repairRecord p.1 p.2 db.files).1))

/-- The `repaired_count` total of one `_attempt_metadata_repair` pass. -/
def repairedCount (db : Db) : Nat :=
  (db.file_index.map (fun p => (repairRecord p.1 p.2 db.files).2)).sum

/-- `DataManager._attempt_metadata_repair`: run the per-record repair over
the whole index; rewrite the index blob only when at least one record was
repaired.  Returns the new container state and `repaired_count`. -/
def attemptMetadataRepair (db : Db) : Db × Nat :=
  if 0 < repairedCount db then
    ({ db with file_index := repairedIndex db }, repairedCount db)
  else (db, repairedCount db)

/-! ### Listing/query façade -/

/-- The path-like test of the `list_files` fallback scan over record
values: a string with a separator whose basename is nonempty and differs
from the whole value. -/
def pathlikeValue : Json → Bool
  | .jstr s =>
      (strHasChar s '/' || strHasChar s '\\') && basename s != "" &&
        basename s != s
  | _ => false

/-- One row of the listing DataFrame.  `file_name`/`file_type` are the
resolved cells (kept as JSON values: a record can hold non-string fields,
which Python carries through unchanged); `analysis` is the decoded
current-analysis results blob joined into the analysis columns, `none`
when those columns keep their `"N/A"` defaults. -/
structure Row where
  file_id : String
  file_name : Json
  file_type : Json
  analysis : Option Dict
deriving Repr

/-- Per-row resolution of `list_files` (data_manager.py:586-658): display
name with its chain of fallbacks, extension-based type inference, and the
current-analysis join.  `none` models a `TypeError` escaping the row loop
(basename/splitext applied to a non-string), which the outer exception
handler turns into an empty DataFrame. -/
def resolveRow (files : List (String × Entry)) (file_id : String)
    (info : FileRecord) : Option Row :=
  let op0 := dgetD info "original_path" (Json.jstr "Unknown")
  let namePath : Option (Json × Json) :=
    if op0.isStr "Unknown" || op0.falsy then
      let fn1 := dgetD info "file_name" (Json.jstr "Unknown")
      if fn1.isStr "Unknown" then
        let fn2 := dgetD info "name" (Json.jstr ("File_" ++ file_id))
        if fn2.isStr ("File_" ++ file_id) then
          match (dvalues info).find? pathlikeValue with
          | some (Json.jstr s) => some (Json.jstr (basename s), Json.jstr s)
          | _ => some (fn2, op0)
        else some (fn2, op0)
      else some (fn1, op0)
    else
      match op0 with
      | Json.jstr s => some (Json.jstr (basename s), op0)
      | _ => none
  match namePath with
  | none => none
  | some (fname, pathV) =>
      let ft0 := dgetD info "file_type" (Json.jstr "Unknown")
      let ftype : Option Json :=
        if ft0.isStr "Unknown" && !(pathV.isStr "Unknown") then
          match pathV with
          | Json.jstr s =>
              match extFileType s with
              | some t => some (Json.jstr t)
              | none => some ft0
          | _ => none
        else some ft0
      match ftype with
      | none => none
      | some ft =>
          let analysisJ : Option Dict :=
            match alget files file_id with
            | some e =>
                match e.photon_analysis with
                | some pa =>
                    match pa.results with
                    | some (Json.jobj d) => some d
                    | _ => none
                | none => none
            | none => none
          some { file_id := file_id, file_name := fname, file_type := ft,
                 analysis := analysisJ }

/-- One pass of the listing loop over the whole index (no repair). -/
def listOnce (db : Db) : Option (List Row) :=
  db.file_index.mapM (fun p => resolveRow db.files p.1 p.2)

/-- `len(df[df['File Name'] == 'Unknown'])`. -/
def unknownCount (rows : List Row) : Nat :=
  (rows.filter (fun r => r.file_name.isStr "Unknown")).length

/-- Outcome of a `list_files` call. -/
inductive ListResult where
  | rows (rs : List Row)
  | errorEmpty
  | exhausted
deriving Repr

/-- `DataManager.list_files`.  The source recurses unconditionally after a
repair pass whenever the view contains `Unknown` rows
(data_manager.py:663-669); the `fuel` argument counts how many repair/
re-list cycles we allow before reporting `exhausted`, so
`(list_files fuel db).2 ≠ exhausted` states that the call returns after at
most `fuel` repair passes. -/
def list_files : Nat → Db → Db × ListResult
  | 0, db =>
      match listOnce db with
      | none => (db, ListResult.errorEmpty)
      | some rows =>
          if 0 < unknownCount rows then (db, ListResult.exhausted)
          else (db, ListResult.rows rows)
  | n + 1, db =>
      match listOnce db with
      | none => (db, ListResult.errorEmpty)
      | some rows =>
          if 0 < unknownCount rows then
            list_files n (attemptMetadataRepair db).1
          else (db, ListResult.rows rows)

/-! ### Deadtime correction (`signal_processing.deadtime_correction`) -/

/-- `np.interp(deadtime, [22e-9, 28e-9, 62e-9], [37, 30, 12])`, the
saturation limit in Mcps from the fixed 3-point calibration table. -/
def interpSat (deadtime : ℚ) : ℚ :=
  if deadtime ≤ 22 / 1000000000 then 37
  else if deadtime ≤ 28 / 1000000000 then
    37 + (deadtime - 22 / 1000000000) *
      ((30 - 37) / (28 / 1000000000 - 22 / 1000000000))
  else if deadtime ≤ 62 / 1000000000 then
    30 + (deadtime - 28 / 1000000000) *
      ((12 - 30) / (62 / 1000000000 - 28 / 1000000000))
  else 12

/-- `deadtime_correction` on one element of the rate array (the function is
applied elementwise by numpy), modelled over `ℚ`: the corrected rate
`(r·1e6) / (1 - r·1e6·τ)` scaled back by `1e-6`, then
`np.clip(x, 0, s) = min (max x 0) s`.  (At the singularity
`r·1e6·τ = 1`, numpy yields `inf` which clips to the limit, while `ℚ`
division yields 0; the claims proved below stay away from that point.) -/
def deadtime_correction (count_rate : ℚ) (deadtime : ℚ) : ℚ :=
  min
    (max ((count_rate * 1000000) / (1 - count_rate * 1000000 * deadtime)
      * (1 / 1000000)) 0)
    (interpSat deadtime)

end FLX

namespace FLX

/-! ### The AnalysisResult record (spec §3) and its serialization -/

/-- The AnalysisResult record written through `update_file_analysis` by the
analysis pipeline.  Numeric fields are carried by the exact numeric model of
`Json.jnum` (Python's json round-trips numbers losslessly). -/
structure AnalysisResult where
  total_peak_count : Int
  flowrate : Int
  avg_background : Int
  avg_fl_signal : Int
  avg_particle_transit_time : Int
  signal_cv : Int
  signal_to_bg_ratio : Int
  recording_time : Int
  effective_recording_time : Int
  total_photon_count : Int
  start_bins : List Int
  end_bins : List Int
  warning_flags : String
  error_flags : String
  exception_message : String
deriving Repr, DecidableEq

/-- The Python dict passed to `update_file_analysis` for an
`AnalysisResult`; `start_bins`/`end_bins` serialize as JSON arrays (an empty
sequence becomes `[]`, not `null`). -/
def encodeAnalysis (r : AnalysisResult) : Dict :=
  [("total_peak_count", Json.jnum r.total_peak_count),
   ("flowrate", Json.jnum r.flowrate),
   ("avg_background", Json.jnum r.avg_background),
   ("avg_fl_signal", Json.jnum r.avg_fl_signal),
   ("avg_particle_transit_time", Json.jnum r.avg_particle_transit_time),
   ("signal_cv", Json.jnum r.signal_cv),
   ("signal_to_bg_ratio", Json.jnum r.signal_to_bg_ratio),
   ("recording_time", Json.jnum r.recording_time),
   ("effective_recording_time", Json.jnum r.effective_recording_time),
   ("total_photon_count", Json.jnum r.total_photon_count),
   ("start_bins", Json.jarr (r.start_bins.map Json.jnum)),
   ("end_bins", Json.jarr (r.end_bins.map Json.jnum)),
   ("warning_flags", Json.jstr r.warning_flags),
   ("error_flags", Json.jstr r.error_flags),
   ("exception_message", Json.jstr r.exception_message)]

/-- Read back an `Int` field of a decoded results dict. -/
def fieldInt (d : Dict) (k : String) : Option Int :=
  match dget d k with
  | some (Json.jnum n) => some n
  | _ => none

/-- Read back a `String` field of a decoded results dict. -/
def fieldStr (d : Dict) (k : String) : Option String :=
  match dget d k with
  | some (Json.jstr s) => some s
  | _ => none

/-- Read back a JSON array of numbers as a sequence of `Int`. -/
def intListOf : List Json → Option (List Int)
  | [] => some []
  | Json.jnum n :: rest => (intListOf rest).map (fun xs => n :: xs)
  | _ => none

/-- Read back an int-sequence field of a decoded results dict. -/
def fieldIntList (d : Dict) (k : String) : Option (List Int) :=
  match dget d k with
  | some (Json.jarr es) => intListOf es
  | _ => none

/-- Parse a decoded results dict back into an `AnalysisResult`. -/
def decodeAnalysis (d : Dict) : Option AnalysisResult :=
  match fieldInt d "total_peak_count", fieldInt d "flowrate",
      fieldInt d "avg_background", fieldInt d "avg_fl_signal",
      fieldInt d "avg_particle_transit_time", fieldInt d "signal_cv",
      fieldInt d "signal_to_bg_ratio", fieldInt d "recording_time",
      fieldInt d "effective_recording_time",
      fieldInt d "total_photon_count", fieldIntList d "start_bins",
      fieldIntList d "end_bins", fieldStr d "warning_flags",
      fieldStr d "error_flags", fieldStr d "exception_message" with
  | some a, some b, some c, some e, some f, some g, some h, some i, some j,
      some k, some sb, some eb, some w, some er, some ex =>
      some { total_peak_count := a, flowrate := b, avg_background := c,
             avg_fl_signal := e, avg_particle_transit_time := f,
             signal_cv := g, signal_to_bg_ratio := h, recording_time := i,
             effective_recording_time := j, total_photon_count := k,
             start_bins := sb, end_bins := eb, warning_flags := w,
             error_flags := er, exception_message := ex }
  | _, _, _, _, _, _, _, _, _, _, _, _, _, _, _ => none

end FLX


namespace FLX

/-! ### Concrete fixtures (inputs for witnesses and counterexamples) -/

/-- A `raw_data/` group with all three dataset keys present, each holding
the JSON-`null` marker (as written by the importers for missing members). -/
def rawDataAllAbsent : RawData :=
  { alignment_image := some Slot.absent, laser_on_image := some Slot.absent,
    photon_data := some Slot.absent }

/-- An entry whose `raw_data/` group has a `photon_data` dataset key. -/
def entryPhotonKey : Entry :=
  { attrs := [], file_metadata := none, raw_data := some rawDataAllAbsent,
    analysis := [], photon_analysis := none }

/-- An entry without a `raw_data/` group. -/
def entryNoRaw : Entry :=
  { attrs := [], file_metadata := none, raw_data := none,
    analysis := [], photon_analysis := none }

/-- A FileRecord corrupted to the `"Unknown"` sentinel on both the path and
the `name` fallback, so its listing row resolves to `Unknown`. -/
def unknownRec : FileRecord :=
  [("original_path", Json.jstr "Unknown"), ("name", Json.jstr "Unknown")]

/-- Container with an orphaned index record (no Entry subtree). -/
def orphanDb : Db :=
  { db_info := Json.null, file_index := [("f1", unknownRec)], files := [] }

/-- The same corrupted record, with its Entry subtree present. -/
def suspectDb : Db :=
  { db_info := Json.null, file_index := [("f1", unknownRec)],
    files := [("f1", entryPhotonKey)] }

/-- A FileRecord holding neither `file_name` nor `original_path` (reachable:
`update_file_analysis` inserts `{'has_analysis': True}` as the whole record
for an id missing from the index). -/
def bareRec : FileRecord := [("has_analysis", Json.jbool true)]

/-- Container whose only record is `bareRec`. -/
def bareDb : Db :=
  { db_info := Json.null, file_index := [("a", bareRec)],
    files := [("a", entryPhotonKey)] }

/-- A FileRecord as written by the FLZ importer. -/
def normalRec : FileRecord :=
  [("original_path", Json.jstr "data/run1.flz"),
   ("file_type", Json.jstr "flz"), ("added", Json.jstr "T0"),
   ("has_alignment_image", Json.jbool true),
   ("has_laser_on_image", Json.jbool true),
   ("has_photon_data", Json.jbool true)]

/-- A well-formed single-entry container. -/
def normalDb : Db :=
  { db_info := Json.null, file_index := [("a", normalRec)],
    files := [("a", entryPhotonKey)] }

/-- A format-A archive from which every member is missing, including the
raw-capture (photon stream) member. -/
def emptyArchive : FlzArchive :=
  { metadata := none, alignment_image := none, laser_on_image := none,
    photon_data := none }

/-- A sample AnalysisResult with no detected peaks. -/
def sampleResult : AnalysisResult :=
  { total_peak_count := 0, flowrate := 0, avg_background := 5,
    avg_fl_signal := 0, avg_particle_transit_time := 0, signal_cv := 0,
    signal_to_bg_ratio := 0, recording_time := 30,
    effective_recording_time := 30, total_photon_count := 12345,
    start_bins := [], end_bins := [], warning_flags := "",
    error_flags := "", exception_message := "" }

/-- Structural invariant of the data model: every indexed id has an Entry
subtree (spec §3). -/
def IndexedHasSubtree (db : Db) : Prop :=
  ∀ id, almem db.file_index id = true → almem db.files id = true

/-! ### Association-list and dict lemmas -/

theorem alget_cons (k₀ k : String) (v₀ : α) (rest : List (String × α)) :
    alget ((k₀, v₀) :: rest) k = if k₀ == k then some v₀ else alget rest k := by
  cases h : (k₀ == k)
  · unfold alget
    rw [List.find?_cons_of_neg]
    · simp [h]
    · simp [h]
  · unfold alget
    rw [List.find?_cons_of_pos]
    · simp [h]
    · simp [h]

theorem alget_alset_self (l : List (String × α)) (k : String) (v : α) :
    alget (alset l k v) k = some v := by
  induction l with
  | nil => simp [alset, alget_cons]
  | cons p rest ih =>
      obtain ⟨k₀, v₀⟩ := p
      by_cases h : k₀ = k
      · subst h; simp [alset, alget_cons]
      · simp [alset, h, alget_cons, ih]

theorem alget_alset_ne (l : List (String × α)) (k k' : String) (v : α)
    (h : k ≠ k') : alget (alset l k' v) k = alget l k := by
  induction l with
  | nil => simp [alset, alget_cons, alget, Ne.symm h]
  | cons p rest ih =>
      obtain ⟨k₀, v₀⟩ := p
      by_cases h₀ : k₀ = k'
      · subst h₀; simp [alset, alget_cons, Ne.symm h]
      · simp [alset, h₀, alget_cons, ih]

theorem alget_append_fresh (l : List (String × α)) (k : String) (v : α)
    (h : alget l k = none) : alget (l ++ [(k, v)]) k = some v := by
  induction l with
  | nil => simp [alget_cons]
  | cons p rest ih =>
      obtain ⟨k₀, v₀⟩ := p
      rw [alget_cons] at h
      by_cases h₀ : k₀ = k
      · simp [h₀] at h
      · rw [List.cons_append, alget_cons]
        simp only [beq_iff_eq, h₀, if_false] at h ⊢
        exact ih h

theorem alget_append_left (l : List (String × α)) (k k' : String) (v : α)
    (h : k ≠ k') : alget (l ++ [(k', v)]) k = alget l k := by
  induction l with
  | nil => simp [alget_cons, Ne.symm h, alget]
  | cons p rest ih =>
      obtain ⟨k₀, v₀⟩ := p
      rw [List.cons_append, alget_cons, alget_cons]
      by_cases h₀ : k₀ = k
      · simp [h₀]
      · simp [h₀, ih]

theorem almem_eq_isSome_alget (l : List (String × α)) (k : String) :
    almem l k = (alget l k).isSome := by
  induction l with
  | nil => simp [almem, alget]
  | cons p rest ih =>
      obtain ⟨k₀, v₀⟩ := p
      rw [alget_cons]
      by_cases h₀ : k₀ = k
      · simp [almem, h₀]
      · simp only [almem, List.any_cons, beq_iff_eq, h₀, decide_eq_true_eq] at ih ⊢
        simp [h₀, ih, almem]

theorem almem_append_single (l : List (String × α)) (k j : String) (v : α) :
    almem (l ++ [(k, v)]) j = (almem l j || (k == j)) := by
  simp [almem, List.any_append]

theorem almem_alset (l : List (String × α)) (k j : String) (v : α) :
    almem (alset l k v) j = (almem l j || (k == j)) := by
  induction l with
  | nil => simp [alset, almem]
  | cons p rest ih =>
      obtain ⟨k₀, v₀⟩ := p
      by_cases h : k₀ = k
      · subst h
        simp only [alset, beq_self_eq_true, if_true, almem, List.any_cons]
        cases h₁ : (k₀ == j) <;> simp
      · simp only [alset, beq_iff_eq, h, if_false, almem, List.any_cons]
        simp only [almem] at ih
        rw [ih]
        cases h₁ : (k₀ == j) <;> simp

theorem dget_eq_alget (d : Dict) (k : String) : dget d k = alget d k := rfl

theorem dset_eq_alset (d : Dict) (k : String) (v : Json) :
    dset d k v = alset d k v := by
  induction d with
  | nil => rfl
  | cons p rest ih =>
      obtain ⟨k₀, v₀⟩ := p
      by_cases h : k₀ = k <;> simp [dset, alset, h, ih]

theorem dget_dset_self (d : Dict) (k : String) (v : Json) :
    dget (dset d k v) k = some v := by
  rw [dget_eq_alget, dset_eq_alset]; exact alget_alset_self d k v

theorem dget_dset_ne (d : Dict) (k k' : String) (v : Json)
    (h : k ≠ k') : dget (dset d k' v) k = dget d k := by
  rw [dget_eq_alget, dget_eq_alget, dset_eq_alset]
  exact alget_alset_ne d k k' v h

theorem updateFileIndex_files (db : Db) (id : String) (info : FileRecord) :
    (updateFileIndex db id info).files = db.files := by
  unfold updateFileIndex
  cases alget db.file_index id <;> rfl

theorem updateFileIndex_db_info (db : Db) (id : String) (info : FileRecord) :
    (updateFileIndex db id info).db_info = db.db_info := by
  unfold updateFileIndex
  cases alget db.file_index id <;> rfl

theorem updateFileIndex_alget_fresh (db : Db) (id : String)
    (info : FileRecord) (h : alget db.file_index id = none) :
    alget (updateFileIndex db id info).file_index id = some info := by
  unfold updateFileIndex
  rw [h]
  exact alget_alset_self db.file_index id info

end FLX

namespace FLX

/-! ### Claim C10 -/

/-- C10: for every id present in the FileIndex whose Entry subtree is
absent (an orphan index record), `delete_file` returns failure and leaves
the whole store unchanged, so delete alone never removes an orphan index
record. -/
theorem C10_delete_orphan_noop (db : Db) (id : String) (info : FileRecord)
    (_hidx : alget db.file_index id = some info)
    (hfiles : alget db.files id = none) :
    delete_file db id = (db, false) := by
  have hmem : almem db.files id = false := by
    rw [almem_eq_isSome_alget, hfiles]; rfl
  unfold delete_file
  rw [hmem]
  simp

/-- Witness for C10 at the concrete orphan container. -/
theorem C10_delete_orphan_noop_witness :
    delete_file orphanDb "f1" = (orphanDb, false) :=
  C10_delete_orphan_noop orphanDb "f1" unknownRec rfl rfl

/-! ### Claim C5 -/

/-- C5 falsified: on input `"mydb"` the container is created at the
normalized path `"mydb.fldb"`, but the handle retained by the manager is
the un-normalized `"mydb"` (`self.db_path` is assigned before the extension
is appended, data_manager.py:160-162). -/
theorem C5_counterexample :
    (create_database { db_path := none } "mydb" true "T0").1.db_path
        = some "mydb" ∧
    (create_database { db_path := none } "mydb" true "T0").2.2
        = some ("mydb.fldb", freshDb "T0") ∧
    some "mydb" ≠ some "mydb.fldb" := by
  refine ⟨rfl, ?_, by decide⟩
  rfl

/-- C5 amended: `create_database` normalizes the input path to the required
`.fldb` extension and writes DbInfo plus an empty FileIndex at the
normalized path, failing on an unwritable path — but the handle retained by
the manager is the input path exactly as passed, not the normalized one. -/
theorem C5_create_database (dm : DM) (p : String) (writable : Bool)
    (now : String) :
    (create_database dm p writable now).2.1 = writable ∧
    (create_database dm p writable now).2.2 =
      (if writable then some (normalizePath p, freshDb now) else none) ∧
    (create_database dm p writable now).1.db_path = some p ∧
    (freshDb now).file_index = [] ∧
    (freshDb now).files = [] := by
  unfold create_database freshDb
  cases writable <;> simp

/-! ### Claim C1 -/

/-- C1 falsified: importing a format-A archive with *no* members at all —
in particular no raw-capture (photon stream) member — succeeds and returns
an EntryID instead of failing with `InvalidArchive`. -/
theorem C1_counterexample :
    emptyArchive.photon_data = none ∧
    (add_flz_file normalDb "u1" emptyArchive "runs/a.flz" "T1").2
      = some "u1" := by
  exact ⟨rfl, rfl⟩

/-- C1 amended: every archive member is optional, including the raw-capture
(photon stream) member.  For any archive, `add_flz_file` succeeds, stores
each missing member as an Absent slot (the JSON-`null` marker), and records
the corresponding `has_*` flags — absence of the raw-capture member merely
yields `has_photon_data = false`, not an `InvalidArchive` failure. -/
theorem C1_flz_import (db : Db) (uid : String) (arch : FlzArchive)
    (p now : String)
    (hf : alget db.files uid = none) (hi : alget db.file_index uid = none) :
    (add_flz_file db uid arch p now).2 = some uid ∧
    alget (add_flz_file db uid arch p now).1.files uid = some
      { attrs := [], file_metadata := truthyMeta arch.metadata,
        raw_data := some
          { alignment_image := some (slotOf arch.alignment_image),
            laser_on_image := some (slotOf arch.laser_on_image),
            photon_data := some (slotOf arch.photon_data) },
        analysis := [], photon_analysis := none } ∧
    alget (add_flz_file db uid arch p now).1.file_index uid = some
      [("original_path", Json.jstr p),
       ("file_type", Json.jstr "flz"),
       ("added", Json.jstr now),
       ("has_alignment_image", Json.jbool arch.alignment_image.isSome),
       ("has_laser_on_image", Json.jbool arch.laser_on_image.isSome),
       ("has_photon_data", Json.jbool arch.photon_data.isSome)] := by
  refine ⟨rfl, ?_, ?_⟩
  · show alget (updateFileIndex _ uid (flzRecord arch p now)).files uid = _
    rw [updateFileIndex_files]
    exact alget_append_fresh db.files uid (flzEntry arch) hf
  · show alget
      (updateFileIndex _ uid (flzRecord arch p now)).file_index uid = _
    exact updateFileIndex_alget_fresh _ uid _ hi

/-- Witness for C1 amended: importing the member-less archive into the
concrete container. -/
theorem C1_flz_import_witness :
    (add_flz_file normalDb "u1" emptyArchive "runs/a.flz" "T1").2
        = some "u1" ∧
    alget (add_flz_file normalDb "u1" emptyArchive "runs/a.flz" "T1").1.files
        "u1" = some
      { attrs := [], file_metadata := truthyMeta emptyArchive.metadata,
        raw_data := some
          { alignment_image := some (slotOf emptyArchive.alignment_image),
            laser_on_image := some (slotOf emptyArchive.laser_on_image),
            photon_data := some (slotOf emptyArchive.photon_data) },
        analysis := [], photon_analysis := none } ∧
    alget
        (add_flz_file normalDb "u1" emptyArchive "runs/a.flz" "T1").1.file_index
        "u1" = some
      [("original_path", Json.jstr "runs/a.flz"),
       ("file_type", Json.jstr "flz"),
       ("added", Json.jstr "T1"),
       ("has_alignment_image", Json.jbool emptyArchive.alignment_image.isSome),
       ("has_laser_on_image", Json.jbool emptyArchive.laser_on_image.isSome),
       ("has_photon_data", Json.jbool emptyArchive.photon_data.isSome)] :=
  C1_flz_import normalDb "u1" emptyArchive "runs/a.flz" "T1" rfl rfl

end FLX

namespace FLX

/-! ### Claim C8 -/

theorem append3_ne_of_length (a id b t : String)
    (h : ∀ n, a.length + n + b.length ≠ t.length) : a ++ id ++ b ≠ t := by
  intro he
  exact h id.length
    (by rw [← String.length_append, ← String.length_append, he])

theorem append_ne_of_length (a id t : String)
    (h : ∀ n, a.length + n ≠ t.length) : a ++ id ≠ t := by
  intro he
  exact h id.length (by rw [← String.length_append, he])

theorem recordSuspect_repairSynthesize (id : String) (e : Entry)
    (info : FileRecord) :
    recordSuspect (repairSynthesize id e info) = false := by
  unfold repairSynthesize recordSuspect dgetD
  rw [dget_dset_ne _ _ _ _ (by decide : "original_path" ≠ "status"),
    dget_dset_ne _ _ _ _ (by decide : "original_path" ≠ "file_name"),
    dget_dset_ne _ _ _ _ (by decide : "original_path" ≠ "file_type"),
    dget_dset_self]
  cases hp : entryHasPhotonKey e
  · simp only [hp, if_false, Bool.false_eq_true]
    have h1 : "recovered_file_" ++ id ≠ "" :=
      append_ne_of_length _ _ _ (fun n => by show 15 + n ≠ 0; omega)
    have h2 : "recovered_file_" ++ id ≠ "Unknown" :=
      append_ne_of_length _ _ _ (fun n => by show 15 + n ≠ 7; omega)
    simp [Json.falsy, Json.isStr, h1, h2]
  · simp only [hp, if_true]
    have h1 : "recovered_photon_data_" ++ id ++ ".flz" ≠ "" :=
      append3_ne_of_length _ _ _ _ (fun n => by show 22 + n + 4 ≠ 0; omega)
    have h2 : "recovered_photon_data_" ++ id ++ ".flz" ≠ "Unknown" :=
      append3_ne_of_length _ _ _ _ (fun n => by show 22 + n + 4 ≠ 7; omega)
    simp [Json.falsy, Json.isStr, h1, h2]

theorem repairRecord_not_suspect (id : String) (info : FileRecord)
    (files : List (String × Entry)) (h : recordSuspect info = false) :
    repairRecord id info files = (info, 0) := by
  unfold repairRecord
  rw [h]
  rfl

theorem repairRecord_no_entry (id : String) (info : FileRecord)
    (files : List (String × Entry)) (hs : recordSuspect info = true)
    (hent : alget files id = none) :
    repairRecord id info files = (info, 0) := by
  unfold repairRecord
  rw [hs, hent]
  rfl

theorem repairRecord_with_entry (id : String) (info : FileRecord)
    (files : List (String × Entry)) (entry : Entry)
    (hent : alget files id = some entry) (hs : recordSuspect info = true) :
    repairRecord id info files = repairWithEntry id info entry := by
  unfold repairRecord
  rw [hs, hent]
  rfl

theorem recordSuspect_after_repair (id : String) (info : FileRecord)
    (files : List (String × Entry)) (entry : Entry)
    (hent : alget files id = some entry) (hs : recordSuspect info = true) :
    recordSuspect (repairRecord id info files).1 = false := by
  rw [repairRecord_with_entry id info files entry hent hs]
  show recordSuspect
    (if recordSuspect (repairFromAttrs info entry).1 = true then
      (repairSynthesize id entry (repairFromAttrs info entry).1,
        (repairFromAttrs info entry).2 + 1)
     else repairFromAttrs info entry).1 = false
  split
  · exact recordSuspect_repairSynthesize id entry _
  · next hchk => exact Bool.not_eq_true _ |>.mp hchk

theorem repairRecord_idem (id : String) (info : FileRecord)
    (files : List (String × Entry)) :
    repairRecord id (repairRecord id info files).1 files
      = ((repairRecord id info files).1, 0) := by
  cases hs : recordSuspect info
  · rw [repairRecord_not_suspect id info files hs]
    exact repairRecord_not_suspect id info files hs
  · cases hent : alget files id with
    | none =>
        rw [repairRecord_no_entry id info files hs hent]
        exact repairRecord_no_entry id info files hs hent
    | some entry =>
        exact repairRecord_not_suspect id _ files
          (recordSuspect_after_repair id info files entry hent hs)

theorem attemptMetadataRepair_fixed (db : Db)
    (h : ∀ p ∈ db.file_index, repairRecord p.1 p.2 db.files = (p.2, 0)) :
    attemptMetadataRepair db = (db, 0) := by
  have hc : repairedCount db = 0 := by
    apply List.sum_eq_zero
    intro x hx
    obtain ⟨q, hq, rfl⟩ := List.mem_map.mp hx
    rw [h q hq]
  unfold attemptMetadataRepair
  rw [hc]
  rfl

/-- C8: a second repair pass over an already-repaired index performs zero
repairs and leaves the container unchanged (repair is idempotent), and a
record whose `original_path` is no longer absent or the `"Unknown"`
sentinel is excluded from the suspect set (the per-record repair leaves it
untouched and counts no repair for it). -/
theorem C8_repair_idempotent (db : Db) :
    attemptMetadataRepair (attemptMetadataRepair db).1
        = ((attemptMetadataRepair db).1, 0) ∧
    (∀ id info, recordSuspect info = false →
      repairRecord id info db.files = (info, 0)) := by
  constructor
  · by_cases hc : 0 < repairedCount db
    · have hdb1 : (attemptMetadataRepair db).1
          = { db with file_index := repairedIndex db } := by
        unfold attemptMetadataRepair
        rw [if_pos hc]
      rw [hdb1]
      apply attemptMetadataRepair_fixed
      intro p hp
      obtain ⟨q, hq, rfl⟩ := List.mem_map.mp hp
      exact repairRecord_idem q.1 q.2 db.files
    · have hcnt : repairedCount db = 0 := by omega
      have h0 : attemptMetadataRepair db = (db, 0) := by
        unfold attemptMetadataRepair
        rw [hcnt]
        rfl
      rw [h0]
      exact h0
  · intro id info h
    exact repairRecord_not_suspect id info db.files h

/-- Witness for C8: idempotence at the concrete corrupted container, and
suspect-set exclusion of an already-healthy record. -/
theorem C8_repair_idempotent_witness :
    attemptMetadataRepair (attemptMetadataRepair suspectDb).1
        = ((attemptMetadataRepair suspectDb).1, 0) ∧
    repairRecord "x" normalRec suspectDb.files = (normalRec, 0) :=
  ⟨(C8_repair_idempotent suspectDb).1,
   (C8_repair_idempotent suspectDb).2 "x" normalRec rfl⟩

end FLX

namespace FLX

/-! ### Claim C4 -/

theorem alget_map_keyed (l : List (String × α)) (f : String → α → β)
    (k : String) :
    alget (l.map (fun p => (p.1, f p.1 p.2))) k = (alget l k).map (f k) := by
  induction l with
  | nil => rfl
  | cons p rest ih =>
      obtain ⟨k₀, v₀⟩ := p
      rw [List.map_cons, alget_cons, alget_cons]
      by_cases h : k₀ = k
      · subst h; simp
      · simp [h, ih]

theorem mem_of_alget_some (l : List (String × α)) (k : String) (v : α)
    (h : alget l k = some v) : (k, v) ∈ l := by
  unfold alget at h
  obtain ⟨p, hfind, hp⟩ := Option.map_eq_some'.mp h
  obtain ⟨k', v'⟩ := p
  have hk : k' = k := by
    have := List.find?_some hfind
    simpa using this
  subst hk
  cases hp
  exact List.mem_of_find?_eq_some hfind

theorem repairRecord_synth (id : String) (info : FileRecord)
    (files : List (String × Entry)) (entry : Entry)
    (hs : recordSuspect info = true) (hent : alget files id = some entry)
    (hattr : entry.attrs.find? (fun p => pathlikeAttr p.2) = none) :
    repairRecord id info files = (repairSynthesize id entry info, 1) := by
  rw [repairRecord_with_entry id info files entry hent hs]
  unfold repairWithEntry repairFromAttrs
  rw [hattr]
  show (if recordSuspect info = true
    then (repairSynthesize id entry info, 0 + 1) else (info, 0)) = _
  rw [hs]
  rfl

theorem repairSynthesize_fields (id : String) (e : Entry)
    (info : FileRecord) :
    dget (repairSynthesize id e info) "original_path" = some (Json.jstr
      (if entryHasPhotonKey e then "recovered_photon_data_" ++ id ++ ".flz"
       else "recovered_file_" ++ id)) ∧
    dget (repairSynthesize id e info) "file_type" = some (Json.jstr
      (if entryHasPhotonKey e then "flz" else "unknown")) ∧
    dget (repairSynthesize id e info) "file_name" = some (Json.jstr
      (basename (if entryHasPhotonKey e then
        "recovered_photon_data_" ++ id ++ ".flz"
       else "recovered_file_" ++ id))) ∧
    dget (repairSynthesize id e info) "status"
      = some (Json.jstr "recovered") := by
  unfold repairSynthesize
  cases hp : entryHasPhotonKey e <;>
    simp only [hp, if_true, if_false, Bool.false_eq_true] <;>
    refine ⟨?_, ?_, ?_, ?_⟩
  · rw [dget_dset_ne _ _ _ _ (by decide : "original_path" ≠ "status"),
      dget_dset_ne _ _ _ _ (by decide : "original_path" ≠ "file_name"),
      dget_dset_ne _ _ _ _ (by decide : "original_path" ≠ "file_type"),
      dget_dset_self]
  · rw [dget_dset_ne _ _ _ _ (by decide : "file_type" ≠ "status"),
      dget_dset_ne _ _ _ _ (by decide : "file_type" ≠ "file_name"),
      dget_dset_self]
  · rw [dget_dset_ne _ _ _ _ (by decide : "file_name" ≠ "status"),
      dget_dset_self]
  · rw [dget_dset_self]
  · rw [dget_dset_ne _ _ _ _ (by decide : "original_path" ≠ "status"),
      dget_dset_ne _ _ _ _ (by decide : "original_path" ≠ "file_name"),
      dget_dset_ne _ _ _ _ (by decide : "original_path" ≠ "file_type"),
      dget_dset_self]
  · rw [dget_dset_ne _ _ _ _ (by decide : "file_type" ≠ "status"),
      dget_dset_ne _ _ _ _ (by decide : "file_type" ≠ "file_name"),
      dget_dset_self]
  · rw [dget_dset_ne _ _ _ _ (by decide : "file_name" ≠ "status"),
      dget_dset_self]
  · rw [dget_dset_self]

/-- C4 falsified: on a suspect record whose Entry has a `photon_data`
dataset key holding the JSON-`null` marker (an Absent, hence empty, slot),
the repair pass synthesizes `recovered_photon_data_f1.flz` — not the
claimed `recovered_file_{id}` — and infers type `flz` from mere key
presence, not from a non-empty photon stream. -/
theorem C4_counterexample :
    entryPhotonKey.raw_data = some rawDataAllAbsent ∧
    rawDataAllAbsent.photon_data = some Slot.absent ∧
    alget (attemptMetadataRepair suspectDb).1.file_index "f1" = some
      [("original_path", Json.jstr "recovered_photon_data_f1.flz"),
       ("name", Json.jstr "Unknown"),
       ("file_type", Json.jstr "flz"),
       ("file_name", Json.jstr "recovered_photon_data_f1.flz"),
       ("status", Json.jstr "recovered")] ∧
    "recovered_photon_data_f1.flz" ≠ "recovered_file_f1" := by
  exact ⟨rfl, rfl, by rfl, by decide⟩

/-- C4 amended: for a suspect index record with an Entry subtree and no
path-like attribute, repair synthesizes `recovered_photon_data_{id}.flz`
with `file_type = flz` when the `raw_data` group contains a `photon_data`
dataset key (even when that slot holds the Absent marker), and
`recovered_file_{id}` with `file_type = unknown` otherwise; it derives
`file_name` as the basename of the synthesized path, stamps
`status = recovered`, and persists all fields to the FileIndex. -/
theorem C4_repair_synthesis (db : Db) (id : String) (info : FileRecord)
    (entry : Entry)
    (hidx : alget db.file_index id = some info)
    (hs : recordSuspect info = true)
    (hent : alget db.files id = some entry)
    (hattr : entry.attrs.find? (fun p => pathlikeAttr p.2) = none) :
    alget (attemptMetadataRepair db).1.file_index id
        = some (repairSynthesize id entry info) ∧
    dget (repairSynthesize id entry info) "original_path" = some (Json.jstr
      (if entryHasPhotonKey entry then
        "recovered_photon_data_" ++ id ++ ".flz"
       else "recovered_file_" ++ id)) ∧
    dget (repairSynthesize id entry info) "file_type" = some (Json.jstr
      (if entryHasPhotonKey entry then "flz" else "unknown")) ∧
    dget (repairSynthesize id entry info) "file_name" = some (Json.jstr
      (basename (if entryHasPhotonKey entry then
        "recovered_photon_data_" ++ id ++ ".flz"
       else "recovered_file_" ++ id))) ∧
    dget (repairSynthesize id entry info) "status"
      = some (Json.jstr "recovered") := by
  obtain ⟨h1, h2, h3, h4⟩ := repairSynthesize_fields id entry info
  refine ⟨?_, h1, h2, h3, h4⟩
  have hrec : repairRecord id info db.files
      = (repairSynthesize id entry info, 1) :=
    repairRecord_synth id info db.files entry hs hent hattr
  have hmem : (id, info) ∈ db.file_index := mem_of_alget_some _ _ _ hidx
  have hcnt : 0 < repairedCount db := by
    unfold repairedCount
    have hx : (1 : Nat) ∈ db.file_index.map
        (fun p => (repairRecord p.1 p.2 db.files).2) := by
      refine List.mem_map.mpr ⟨(id, info), hmem, ?_⟩
      rw [hrec]
    have := List.single_le_sum
      (fun (x : Nat) _ => Nat.zero_le x) 1 hx
    omega
  have hres : (attemptMetadataRepair db).1
      = { db with file_index := repairedIndex db } := by
    unfold attemptMetadataRepair
    rw [if_pos hcnt]
  rw [hres]
  show alget (repairedIndex db) id = _
  unfold repairedIndex
  rw [alget_map_keyed db.file_index
    (fun k v => (repairRecord k v db.files).1) id, hidx]
  simp [hrec]

/-- Witness for C4 amended at the concrete corrupted container. -/
theorem C4_repair_synthesis_witness :
    alget (attemptMetadataRepair suspectDb).1.file_index "f1"
        = some (repairSynthesize "f1" entryPhotonKey unknownRec) ∧
    dget (repairSynthesize "f1" entryPhotonKey unknownRec) "original_path"
        = some (Json.jstr
      (if entryHasPhotonKey entryPhotonKey then
        "recovered_photon_data_" ++ "f1" ++ ".flz"
       else "recovered_file_" ++ "f1")) ∧
    dget (repairSynthesize "f1" entryPhotonKey unknownRec) "file_type"
        = some (Json.jstr
      (if entryHasPhotonKey entryPhotonKey then "flz" else "unknown")) ∧
    dget (repairSynthesize "f1" entryPhotonKey unknownRec) "file_name"
        = some (Json.jstr
      (basename (if entryHasPhotonKey entryPhotonKey then
        "recovered_photon_data_" ++ "f1" ++ ".flz"
       else "recovered_file_" ++ "f1"))) ∧
    dget (repairSynthesize "f1" entryPhotonKey unknownRec) "status"
        = some (Json.jstr "recovered") :=
  C4_repair_synthesis suspectDb "f1" unknownRec entryPhotonKey rfl rfl rfl rfl

end FLX

namespace FLX

/-! ### Claim C9 -/

theorem interpSat_nonneg (τ : ℚ) : 0 ≤ interpSat τ := by
  unfold interpSat
  split
  · norm_num
  · split
    · next h1 h2 => nlinarith [h1, h2]
    · split
      · next h1 h2 h3 => nlinarith [h2, h3]
      · norm_num

theorem deadtime_raw_mono (r1 r2 τ : ℚ) (h0 : 0 ≤ r1) (h12 : r1 ≤ r2)
    (hs : r2 * 1000000 * τ < 1) :
    (r1 * 1000000) / (1 - r1 * 1000000 * τ)
      ≤ (r2 * 1000000) / (1 - r2 * 1000000 * τ) := by
  have h2pos : 0 < 1 - r2 * 1000000 * τ := by linarith
  have h1pos : 0 < 1 - r1 * 1000000 * τ := by
    rcases le_or_lt 0 τ with hτ | hτ
    · have hm : r1 * 1000000 * τ ≤ r2 * 1000000 * τ := by
        apply mul_le_mul_of_nonneg_right _ hτ
        linarith
      linarith
    · have hm : r1 * 1000000 * τ ≤ 0 := by
        apply mul_nonpos_of_nonneg_of_nonpos
        · linarith
        · linarith
      linarith
  rw [div_le_div_iff h1pos h2pos]
  nlinarith [h12, h0, hs]

/-- C9 falsified: with the table's own 22 ns deadtime the clipped output is
not monotonic in the input rate — 40 Mcps maps to the saturation limit 37,
while 50 Mcps lies beyond the pole of the correction (≈45.45 Mcps), where
the denominator turns negative and the clip to `[0, limit]` collapses the
output to 0. -/
theorem C9_counterexample :
    deadtime_correction 40 (22 / 1000000000) = 37 ∧
    deadtime_correction 50 (22 / 1000000000) = 0 ∧
    (40 : ℚ) < 50 ∧ (0 : ℚ) < 37 := by
  have hsat : interpSat (22 / 1000000000) = 37 := by
    unfold interpSat
    norm_num
  refine ⟨?_, ?_, by norm_num, by norm_num⟩
  · unfold deadtime_correction
    rw [hsat]
    have hx : (40 * 1000000 : ℚ) / (1 - 40 * 1000000 * (22 / 1000000000))
        * (1 / 1000000) = 1000 / 3 := by norm_num
    rw [hx]
    rw [max_eq_left (by norm_num : (0 : ℚ) ≤ 1000 / 3)]
    rw [min_eq_right (by norm_num : (37 : ℚ) ≤ 1000 / 3)]
  · unfold deadtime_correction
    rw [hsat]
    have hx : (50 * 1000000 : ℚ) / (1 - 50 * 1000000 * (22 / 1000000000))
        * (1 / 1000000) = -500 := by norm_num
    rw [hx]
    rw [max_eq_right (by norm_num : (-500 : ℚ) ≤ 0)]
    rw [min_eq_left (by norm_num : (0 : ℚ) ≤ 37)]

/-- C9 amended: the output of `deadtime_correction` is always clipped into
`[0, limit]` where the limit is interpolated from the fixed 3-point
calibration table; an input rate of 0 maps to 0; and the output is
monotonic in the input rate on the physical domain below the correction's
pole (`rate·1e6·deadtime < 1`) — beyond the pole the corrected value is
negative and clips to 0, breaking global monotonicity. -/
theorem C9_deadtime_correction (r τ : ℚ) :
    0 ≤ deadtime_correction r τ ∧
    deadtime_correction r τ ≤ interpSat τ ∧
    deadtime_correction 0 τ = 0 ∧
    (∀ r1 r2 : ℚ, 0 ≤ r1 → r1 ≤ r2 → r2 * 1000000 * τ < 1 →
      deadtime_correction r1 τ ≤ deadtime_correction r2 τ) := by
  refine ⟨?_, ?_, ?_, ?_⟩
  · exact le_min (le_max_right _ 0) (interpSat_nonneg τ)
  · exact min_le_right _ _
  · unfold deadtime_correction
    have hx : (0 * 1000000 : ℚ) / (1 - 0 * 1000000 * τ) * (1 / 1000000)
        = 0 := by norm_num
    rw [hx, max_self]
    exact min_eq_left (interpSat_nonneg τ)
  · intro r1 r2 h0 h12 hs
    have hraw := deadtime_raw_mono r1 r2 τ h0 h12 hs
    have hx : (r1 * 1000000) / (1 - r1 * 1000000 * τ) * (1 / 1000000)
        ≤ (r2 * 1000000) / (1 - r2 * 1000000 * τ) * (1 / 1000000) :=
      mul_le_mul_of_nonneg_right hraw (by norm_num)
    exact min_le_min (max_le_max hx le_rfl) le_rfl

/-- Witness for C9 amended: monotonicity applied below the pole at the
default 22 ns deadtime. -/
theorem C9_deadtime_correction_witness :
    deadtime_correction 1 (22 / 1000000000)
      ≤ deadtime_correction 2 (22 / 1000000000) :=
  (C9_deadtime_correction 1 (22 / 1000000000)).2.2.2 1 2
    (by norm_num) (by norm_num) (by norm_num)

end FLX

namespace FLX

/-! ### Claim C3 -/

theorem encodeAnalysis_start_bins (r : AnalysisResult) :
    dget (encodeAnalysis r) "start_bins"
      = some (Json.jarr (r.start_bins.map Json.jnum)) := rfl

theorem encodeAnalysis_end_bins (r : AnalysisResult) :
    dget (encodeAnalysis r) "end_bins"
      = some (Json.jarr (r.end_bins.map Json.jnum)) := rfl

theorem intListOf_map (xs : List Int) :
    intListOf (xs.map Json.jnum) = some xs := by
  induction xs with
  | nil => rfl
  | cons x xs ih => simp [List.map_cons, intListOf, ih]

theorem decodeAnalysis_encodeAnalysis (r : AnalysisResult) :
    decodeAnalysis (encodeAnalysis r) = some r := by
  have hsb : fieldIntList (encodeAnalysis r) "start_bins"
      = some r.start_bins := by
    unfold fieldIntList
    rw [encodeAnalysis_start_bins]
    exact intListOf_map r.start_bins
  have heb : fieldIntList (encodeAnalysis r) "end_bins"
      = some r.end_bins := by
    unfold fieldIntList
    rw [encodeAnalysis_end_bins]
    exact intListOf_map r.end_bins
  unfold decodeAnalysis
  rw [hsb, heb]
  rfl

theorem update_file_analysis_present (db : Db) (id : String) (e : Entry)
    (d : Dict) (now : String) (n : Nat)
    (h : alget db.files id = some e)
    (hl : jsonLen (dgetD d "start_bins" (Json.jarr [])) = some n) :
    update_file_analysis db id d now =
      (updateFileIndex
        { db with files := alset db.files id (entryWithAnalysis e d now n) }
        id [("has_analysis", Json.jbool true)], true) := by
  unfold update_file_analysis
  rw [h]
  show update_file_analysis_with db id d now e = _
  unfold update_file_analysis_with
  rw [hl]
  rfl

/-- C3: writing an AnalysisResult through the current-analysis update and
reading it back through the entry read operation yields the stored blob
intact; decoding that blob recovers the record field-for-field, and empty
`start_bins` serialize as the empty JSON sequence `[]`, never `null`. -/
theorem C3_analysis_roundtrip (db : Db) (id : String) (e : Entry)
    (r : AnalysisResult) (now : String)
    (h : alget db.files id = some e) :
    (update_file_analysis db id (encodeAnalysis r) now).2 = true ∧
    ((get_file_data (update_file_analysis db id (encodeAnalysis r) now).1
        id).bind (fun fd => fd.photon_analysis)).bind PhotonAnalysis.results
      = some (Json.jobj (encodeAnalysis r)) ∧
    decodeAnalysis (encodeAnalysis r) = some r ∧
    (r.start_bins = [] →
      dget (encodeAnalysis r) "start_bins" = some (Json.jarr []) ∧
      Json.jarr [] ≠ Json.null) := by
  have hlen : jsonLen (dgetD (encodeAnalysis r) "start_bins" (Json.jarr []))
      = some (r.start_bins.map Json.jnum).length := by
    unfold dgetD
    rw [encodeAnalysis_start_bins]
    rfl
  have hupd := update_file_analysis_present db id e (encodeAnalysis r) now
    (r.start_bins.map Json.jnum).length h hlen
  refine ⟨?_, ?_, decodeAnalysis_encodeAnalysis r, ?_⟩
  · rw [hupd]
  · rw [hupd]
    unfold get_file_data
    rw [updateFileIndex_files]
    show ((match alget (alset db.files id _) id with
      | none => (none : Option FileData)
      | some entry => some
          { file_id := id, metadata := entry.file_metadata,
            alignment_image := (entry.raw_data.bind (fun rd =>
              rd.alignment_image)).map readSlot,
            laser_on_image := (entry.raw_data.bind (fun rd =>
              rd.laser_on_image)).map readSlot,
            photon_data := (entry.raw_data.bind (fun rd =>
              rd.photon_data)).map readSlot,
            analysis_results := entry.analysis,
            photon_analysis := entry.photon_analysis }).bind
        (fun fd => fd.photon_analysis)).bind PhotonAnalysis.results = _
    rw [alget_alset_self]
    rfl
  · intro hsb
    refine ⟨?_, by intro hcon; exact Json.noConfusion hcon⟩
    rw [encodeAnalysis_start_bins, hsb]
    rfl

/-- Witness for C3 at the concrete container and sample record. -/
theorem C3_analysis_roundtrip_witness :
    (update_file_analysis normalDb "a" (encodeAnalysis sampleResult)
        "T2").2 = true ∧
    ((get_file_data (update_file_analysis normalDb "a"
        (encodeAnalysis sampleResult) "T2").1 "a").bind
          (fun fd => fd.photon_analysis)).bind PhotonAnalysis.results
      = some (Json.jobj (encodeAnalysis sampleResult)) ∧
    decodeAnalysis (encodeAnalysis sampleResult) = some sampleResult ∧
    (sampleResult.start_bins = [] →
      dget (encodeAnalysis sampleResult) "start_bins"
        = some (Json.jarr []) ∧
      Json.jarr [] ≠ Json.null) :=
  C3_analysis_roundtrip normalDb "a" entryPhotonKey sampleResult "T2" rfl

end FLX

namespace FLX

/-! ### Claim C7 -/

theorem dmem_eq_almem (d : Dict) (k : String) : dmem d k = almem d k := rfl

theorem duplicate_file_found (db : Db) (id nid now : String) (entry : Entry)
    (info : FileRecord) (hent : alget db.files id = some entry)
    (hinfo : alget db.file_index id = some info) :
    duplicate_file db id nid now = duplicateIndexed
      { db with files := db.files ++ [(nid, entry)] } id nid now info := by
  unfold duplicate_file
  rw [hent]
  show (match alget db.file_index id with
    | none =>
        ({ db with files := db.files ++ [(nid, entry)] }, some nid)
    | some info =>
        duplicateIndexed { db with files := db.files ++ [(nid, entry)] }
          id nid now info) = _
  rw [hinfo]

/-- C7 falsified: for an id present in the store whose FileRecord has
neither `file_name` nor `original_path` (reachable via
`update_file_analysis` on an id absent from the index), `duplicate_file`
succeeds and inserts the stamped copy, but never sets the copy's
`file_name` — no "_copy" name is produced. -/
theorem C7_counterexample :
    (duplicate_file bareDb "a" "b" "T3").2 = some "b" ∧
    alget (duplicate_file bareDb "a" "b" "T3").1.file_index "b" = some
      [("has_analysis", Json.jbool true),
       ("duplicated_from", Json.jstr "a"),
       ("duplicated_at", Json.jstr "T3"),
       ("added", Json.jstr "T3")] ∧
    dget [("has_analysis", Json.jbool true),
       ("duplicated_from", Json.jstr "a"),
       ("duplicated_at", Json.jstr "T3"),
       ("added", Json.jstr "T3")] "file_name" = none := by
  exact ⟨rfl, rfl, rfl⟩

/-- C7 amended: for an id whose Entry subtree exists and whose FileRecord
resolves a nonempty string original name (`file_name`, else
`original_path`), duplication returns the fresh `newId ≠ id`, deep-copies
the Entry subtree under `newId`, sets the copy's `file_name` to the
original stem + "_copy" + extension, stamps `duplicated_from` and
`duplicated_at`, and inserts the copy into the FileIndex; for an id with no
Entry subtree it fails with no EntryID and no change.  (When the record
lacks both name fields the copy is stamped and inserted without a
`file_name`; when the id is missing from the index only the subtree is
copied.) -/
theorem C7_duplicate (db : Db) (id newId now : String) (entry : Entry)
    (info : FileRecord) (s : String)
    (hent : alget db.files id = some entry)
    (hfresh : alget db.files newId = none)
    (hne : newId ≠ id)
    (hinfo : alget db.file_index id = some info)
    (hname : dgetD info "file_name" (dgetD info "original_path"
      (Json.jstr "")) = Json.jstr s)
    (hs : s ≠ "")
    (hop : dget info "original_path" = none ∨
      ∃ op, dget info "original_path" = some (Json.jstr op)) :
    (duplicate_file db id newId now).2 = some newId ∧
    newId ≠ id ∧
    alget (duplicate_file db id newId now).1.files newId = some entry ∧
    (∃ dup, alget (duplicate_file db id newId now).1.file_index newId
        = some dup ∧
      dget dup "file_name" = some (Json.jstr
        ((splitext (basename s)).1 ++ "_copy"
          ++ (splitext (basename s)).2)) ∧
      dget dup "duplicated_from" = some (Json.jstr id) ∧
      dget dup "duplicated_at" = some (Json.jstr now)) ∧
    (∀ (db' : Db) (i n : String), alget db'.files i = none →
      duplicate_file db' i n now = (db', none)) := by
  have hfound := duplicate_file_found db id newId now entry info hent hinfo
  have hfalsy : (Json.jstr s).falsy = false := by
    simp [Json.falsy, hs]
  have hnotfound : ∀ (db' : Db) (i n : String),
      alget db'.files i = none → duplicate_file db' i n now = (db', none) := by
    intro db' i n hnone
    unfold duplicate_file
    rw [hnone]
  set newName := (splitext (basename s)).1 ++ "_copy"
    ++ (splitext (basename s)).2 with hnewName
  have hgetname : ∀ dup0 : FileRecord,
      dget (stampDuplicate (dset dup0 "file_name" (Json.jstr newName))
        id now) "file_name" = some (Json.jstr newName) := by
    intro dup0
    unfold stampDuplicate
    rw [dget_dset_ne _ _ _ _ (by decide : "file_name" ≠ "added"),
      dget_dset_ne _ _ _ _ (by decide : "file_name" ≠ "duplicated_at"),
      dget_dset_ne _ _ _ _ (by decide : "file_name" ≠ "duplicated_from"),
      dget_dset_self]
  have hgetfrom : ∀ dup0 : FileRecord,
      dget (stampDuplicate dup0 id now) "duplicated_from"
        = some (Json.jstr id) := by
    intro dup0
    unfold stampDuplicate
    rw [dget_dset_ne _ _ _ _ (by decide : "duplicated_from" ≠ "added"),
      dget_dset_ne _ _ _ _ (by decide : "duplicated_from" ≠ "duplicated_at"),
      dget_dset_self]
  have hgetat : ∀ dup0 : FileRecord,
      dget (stampDuplicate dup0 id now) "duplicated_at"
        = some (Json.jstr now) := by
    intro dup0
    unfold stampDuplicate
    rw [dget_dset_ne _ _ _ _ (by decide : "duplicated_at" ≠ "added"),
      dget_dset_self]
  rcases hop with hop | ⟨op, hop⟩
  · have hdmem : dmem (dset info "file_name" (Json.jstr newName))
        "original_path" = false := by
      rw [dmem_eq_almem, dset_eq_alset, almem_alset, almem_eq_isSome_alget,
        ← dget_eq_alget, hop]
      rfl
    have hres : duplicate_file db id newId now =
        ({ db with
            files := db.files ++ [(newId, entry)],
            file_index := alset db.file_index newId
              (stampDuplicate (dset info "file_name" (Json.jstr newName))
                id now) },
         some newId) := by
      rw [hfound]
      unfold duplicateIndexed
      rw [hname]
      simp only [hfalsy, Bool.false_eq_true, if_false, hdmem, ← hnewName]
    rw [hres]
    refine ⟨rfl, hne, ?_,
      ⟨stampDuplicate (dset info "file_name" (Json.jstr newName)) id now,
        ?_, hgetname info, hgetfrom _, hgetat _⟩, hnotfound⟩
    · exact alget_append_fresh db.files newId entry hfresh
    · exact alget_alset_self db.file_index newId _
  · have hop1 : dget (dset info "file_name" (Json.jstr newName))
        "original_path" = some (Json.jstr op) := by
      rw [dget_dset_ne _ _ _ _ (by decide : "original_path" ≠ "file_name")]
      exact hop
    have hdmem : dmem (dset info "file_name" (Json.jstr newName))
        "original_path" = true := by
      rw [dmem_eq_almem, dset_eq_alset, almem_alset, almem_eq_isSome_alget,
        ← dget_eq_alget, hop]
      rfl
    have hres : duplicate_file db id newId now =
        ({ db with
            files := db.files ++ [(newId, entry)],
            file_index := alset db.file_index newId
              (stampDuplicate
                (dset (dset info "file_name" (Json.jstr newName))
                  "original_path"
                  (Json.jstr (joinPath (dirname op) newName)))
                id now) },
         some newId) := by
      rw [hfound]
      unfold duplicateIndexed
      rw [hname]
      simp only [hfalsy, Bool.false_eq_true, if_false, hdmem, if_true,
        hop1, ← hnewName]
    rw [hres]
    refine ⟨rfl, hne, ?_,
      ⟨stampDuplicate
          (dset (dset info "file_name" (Json.jstr newName)) "original_path"
            (Json.jstr (joinPath (dirname op) newName))) id now,
        ?_, ?_, hgetfrom _, hgetat _⟩, hnotfound⟩
    · exact alget_append_fresh db.files newId entry hfresh
    · exact alget_alset_self db.file_index newId _
    · rw [hnewName]
      unfold stampDuplicate
      rw [dget_dset_ne _ _ _ _ (by decide : "file_name" ≠ "added"),
        dget_dset_ne _ _ _ _ (by decide : "file_name" ≠ "duplicated_at"),
        dget_dset_ne _ _ _ _ (by decide : "file_name" ≠ "duplicated_from"),
        dget_dset_ne _ _ _ _ (by decide : "file_name" ≠ "original_path"),
        dget_dset_self]

/-- Witness for C7 amended: duplicating the well-formed entry of the
concrete container. -/
theorem C7_duplicate_witness :
    (duplicate_file normalDb "a" "b" "T3").2 = some "b" ∧
    ("b" : String) ≠ "a" ∧
    alget (duplicate_file normalDb "a" "b" "T3").1.files "b"
      = some entryPhotonKey ∧
    (∃ dup, alget (duplicate_file normalDb "a" "b" "T3").1.file_index "b"
        = some dup ∧
      dget dup "file_name" = some (Json.jstr
        ((splitext (basename "data/run1.flz")).1 ++ "_copy"
          ++ (splitext (basename "data/run1.flz")).2)) ∧
      dget dup "duplicated_from" = some (Json.jstr "a") ∧
      dget dup "duplicated_at" = some (Json.jstr "T3")) ∧
    (∀ (db' : Db) (i n : String), alget db'.files i = none →
      duplicate_file db' i n "T3" = (db', none)) :=
  C7_duplicate normalDb "a" "b" "T3" entryPhotonKey normalRec
    "data/run1.flz" rfl rfl (by decide) rfl rfl (by decide)
    (Or.inr ⟨"data/run1.flz", rfl⟩)

end FLX

namespace FLX

/-! ### Claim C6 -/

theorem mergeOne_files (oi : List (String × FileRecord)) (op now : String)
    (db : Db) (item : (String × Entry) × String) :
    (mergeOne oi op now db item).files
      = db.files ++ [(item.2, item.1.2)] := by
  unfold mergeOne
  dsimp only
  split <;> simp [updateFileIndex_files]

theorem foldl_mergeOne_files (oi : List (String × FileRecord))
    (op now : String) :
    ∀ (items : List ((String × Entry) × String)) (db : Db),
    (items.foldl (mergeOne oi op now) db).files
      = db.files ++ items.map (fun it => (it.2, it.1.2)) := by
  intro items
  induction items with
  | nil => intro db; simp
  | cons it rest ih =>
      intro db
      rw [List.foldl_cons, ih, mergeOne_files]
      simp

theorem mergeOne_invariant (oi : List (String × FileRecord))
    (op now : String) (db : Db) (item : (String × Entry) × String)
    (h : IndexedHasSubtree db) :
    IndexedHasSubtree (mergeOne oi op now db item) := by
  intro j hj
  have hj' : almem db.file_index j = true ∨ j = item.2 := by
    unfold mergeOne at hj
    dsimp only at hj
    split at hj
    · next info heq =>
        unfold updateFileIndex at hj
        split at hj <;>
          · rw [almem_alset] at hj
            rcases Bool.or_eq_true_iff.mp hj with h' | h'
            · exact Or.inl h'
            · exact Or.inr (beq_iff_eq.mp h').symm
    · exact Or.inl hj
  rw [mergeOne_files, almem_append_single]
  rcases hj' with hj' | rfl
  · rw [h j hj']
    simp
  · simp

theorem foldl_mergeOne_invariant (oi : List (String × FileRecord))
    (op now : String) :
    ∀ (items : List ((String × Entry) × String)) (db : Db),
    IndexedHasSubtree db →
    IndexedHasSubtree (items.foldl (mergeOne oi op now) db) := by
  intro items
  induction items with
  | nil => intro db h; exact h
  | cons it rest ih =>
      intro db h
      rw [List.foldl_cons]
      exact ih _ (mergeOne_invariant oi op now db it h)

theorem almem_iff_mem_keys (l : List (String × α)) (k : String) :
    almem l k = true ↔ k ∈ l.map Prod.fst := by
  induction l with
  | nil => simp [almem]
  | cons p rest ih =>
      obtain ⟨k₀, v₀⟩ := p
      simp only [almem, List.any_cons, List.map_cons, List.mem_cons,
        Bool.or_eq_true]
      constructor
      · rintro (h | h)
        · left; exact (beq_iff_eq.mp h).symm
        · right; exact ih.mp h
      · rintro (h | h)
        · left; exact beq_iff_eq.mpr h.symm
        · right; exact ih.mpr h

/-- C6: merging container A into B adds exactly `|entries(A)|` entries to
B, with the resulting id set being B's pre-existing ids followed by the
freshly minted ids (so no EntryID collision under fresh minting), and every
prefix of the merge — a mid-merge failure point — keeps the destination
structurally valid: each item is copied-then-indexed, never leaving an
index record without its Entry subtree. -/
theorem C6_merge (db other : Db) (otherPath now : String)
    (newIds : List String)
    (hlen : newIds.length = other.files.length)
    (hnodup : newIds.Nodup)
    (hdisj : ∀ n ∈ newIds, almem db.files n = false)
    (hkeys : (db.files.map Prod.fst).Nodup)
    (hinv : IndexedHasSubtree db) :
    (merge_databases db other otherPath now newIds).1.files.length
        = db.files.length + other.files.length ∧
    (merge_databases db other otherPath now newIds).1.files.map Prod.fst
        = db.files.map Prod.fst ++ newIds ∧
    ((merge_databases db other otherPath now newIds).1.files.map
        Prod.fst).Nodup ∧
    (∀ k, IndexedHasSubtree
      (mergeSteps db other otherPath now newIds k)) ∧
    (merge_databases db other otherPath now newIds).2 = true := by
  have hzip : (other.files.zip newIds).length = other.files.length := by
    rw [List.length_zip, hlen, min_self]
  have htake : (other.files.zip newIds).take other.files.length
      = other.files.zip newIds := by
    rw [← hzip]
    exact List.take_length _
  have hfiles : (merge_databases db other otherPath now newIds).1.files
      = db.files ++ (other.files.zip newIds).map
          (fun it => (it.2, it.1.2)) := by
    unfold merge_databases mergeSteps
    rw [htake, foldl_mergeOne_files]
  have hsnd : (other.files.zip newIds).map (fun it => it.2) = newIds :=
    List.map_snd_zip other.files newIds (le_of_eq hlen)
  have hkeysEq : (merge_databases db other otherPath now newIds).1.files.map
      Prod.fst = db.files.map Prod.fst ++ newIds := by
    rw [hfiles, List.map_append, List.map_map]
    rw [show (Prod.fst ∘ fun it : (String × Entry) × String =>
      (it.2, it.1.2)) = fun it => it.2 from rfl]
    rw [hsnd]
  refine ⟨?_, hkeysEq, ?_, ?_, rfl⟩
  · rw [hfiles, List.length_append, List.length_map, hzip]
  · rw [hkeysEq]
    refine List.Nodup.append hkeys hnodup ?_
    intro a ha hb
    have hfa := hdisj a hb
    rw [← almem_iff_mem_keys] at ha
    rw [ha] at hfa
    simp at hfa
  · intro k
    unfold mergeSteps
    exact foldl_mergeOne_invariant other.file_index otherPath now
      ((other.files.zip newIds).take k) db hinv

end FLX

namespace FLX

/-- Witness for C6: merging the corrupted one-entry container into the
well-formed one under the fresh minted id `n1`. -/
theorem C6_merge_witness :
    (merge_databases normalDb suspectDb "other.fldb" "T4"
        ["n1"]).1.files.length
      = normalDb.files.length + suspectDb.files.length ∧
    (merge_databases normalDb suspectDb "other.fldb" "T4"
        ["n1"]).1.files.map Prod.fst
      = normalDb.files.map Prod.fst ++ ["n1"] ∧
    ((merge_databases normalDb suspectDb "other.fldb" "T4"
        ["n1"]).1.files.map Prod.fst).Nodup ∧
    IndexedHasSubtree
      (mergeSteps normalDb suspectDb "other.fldb" "T4" ["n1"] 1) ∧
    (merge_databases normalDb suspectDb "other.fldb" "T4" ["n1"]).2
      = true := by
  have h := C6_merge normalDb suspectDb "other.fldb" "T4" ["n1"] rfl
    (by decide) (by decide) (by decide) (fun id hm => hm)
  exact ⟨h.1, h.2.1, h.2.2.1, h.2.2.2.1 1, h.2.2.2.2⟩

/-! ### Claim C2 -/

theorem list_files_zero (db : Db) :
    list_files 0 db =
      match listOnce db with
      | none => (db, ListResult.errorEmpty)
      | some rows =>
          if 0 < unknownCount rows then (db, ListResult.exhausted)
          else (db, ListResult.rows rows) := rfl

theorem list_files_succ (n : Nat) (db : Db) :
    list_files (n + 1) db =
      match listOnce db with
      | none => (db, ListResult.errorEmpty)
      | some rows =>
          if 0 < unknownCount rows then
            list_files n (attemptMetadataRepair db).1
          else (db, ListResult.rows rows) := rfl

/-- C2 falsified: on a container whose only record is an orphaned index row
stuck at the `"Unknown"` display name, the repair pass repairs nothing (the
Entry subtree is missing), and the listing keeps triggering repair/re-list
cycles — it does not return the row labeled Unknown after one repair pass
(`exhausted` reports that the recursion is still re-listing after the given
number of repair passes; the source recursion has no bound at all). -/
theorem C2_counterexample :
    listOnce orphanDb = some
      [{ file_id := "f1", file_name := Json.jstr "Unknown",
         file_type := Json.jstr "Unknown", analysis := none }] ∧
    attemptMetadataRepair orphanDb = (orphanDb, 0) ∧
    list_files 1 orphanDb = (orphanDb, ListResult.exhausted) ∧
    list_files 5 orphanDb = (orphanDb, ListResult.exhausted) := by
  exact ⟨rfl, rfl, rfl, rfl⟩

/-- C2 amended: after the listing detects Unknown rows it runs exactly one
repair pass and re-lists; the call returns the re-listed rows precisely
when that single repair pass resolved every Unknown row — when rows remain
unresolved, the listing recurses into a further repair/re-list cycle
instead of returning them labeled Unknown. -/
theorem C2_listing (db : Db) (rows rows' : List Row)
    (h1 : listOnce db = some rows)
    (h2 : 0 < unknownCount rows)
    (h3 : listOnce (attemptMetadataRepair db).1 = some rows') :
    (unknownCount rows' = 0 →
      list_files 1 db
        = ((attemptMetadataRepair db).1, ListResult.rows rows')) ∧
    (0 < unknownCount rows' →
      list_files 1 db
        = ((attemptMetadataRepair db).1, ListResult.exhausted)) := by
  have e1 : list_files 1 db = list_files 0 (attemptMetadataRepair db).1 := by
    rw [list_files_succ 0 db, h1]
    show (if 0 < unknownCount rows then
      list_files 0 (attemptMetadataRepair db).1
      else (db, ListResult.rows rows)) = _
    rw [if_pos h2]
  constructor
  · intro h4
    rw [e1, list_files_zero, h3]
    show (if 0 < unknownCount rows' then _ else _) = _
    rw [if_neg (by omega)]
  · intro h4
    rw [e1, list_files_zero, h3]
    show (if 0 < unknownCount rows' then _ else _) = _
    rw [if_pos h4]

/-- Witness for C2 amended: the corrupted record with its subtree present
is resolved by the single repair pass, and the one re-listing returns. -/
theorem C2_listing_witness :
    list_files 1 suspectDb = ((attemptMetadataRepair suspectDb).1,
      ListResult.rows
        [{ file_id := "f1",
           file_name := Json.jstr "recovered_photon_data_f1.flz",
           file_type := Json.jstr "flz", analysis := none }]) :=
  (C2_listing suspectDb
    [{ file_id := "f1", file_name := Json.jstr "Unknown",
       file_type := Json.jstr "Unknown", analysis := none }]
    [{ file_id := "f1",
       file_name := Json.jstr "recovered_photon_data_f1.flz",
       file_type := Json.jstr "flz", analysis := none }]
    rfl (by decide) rfl).1 (by decide)

end FLX
